import Mathlib

/-!
Verification of the FastAPI banking ledger
(`13 - APIs Assíncronas com FastAPI/desafio/fastapi_banco`).

The Python service keeps three tables (users, accounts, transactions) and
four route handlers: `criar_usuario`, `criar_conta`, `criar_transacao` and
`extrato` (main.py).  We embed the tables as lists of records, the
autoincrement primary keys as explicit counters, monetary amounts as
rationals, and each handler as a pure function on the state.  A handler
that raises `HTTPException` before committing is embedded as returning the
unchanged state together with the error (status code and detail string
exactly as in main.py).  The server clock is passed in as a `now`
parameter; the created transaction's timestamp is that value.
-/

namespace FastApiBanco

/-- A row of the `users` table (models.py, class `Usuario`):
integer primary key, unique username, hashed password. -/
structure Usuario where
  id : Nat
  username : String
  password : String
deriving Repr, DecidableEq

/-- A row of the `accounts` table (models.py, class `Account`):
integer primary key, foreign key to the owning user, and a balance. -/
structure Account where
  id : Nat
  user_id : Nat
  balance : Rat
deriving Repr, DecidableEq

/-- A row of the `transactions` table (models.py, class `Transaction`):
integer primary key, foreign key to the account, amount, kind
(the string field `type`, either "deposit" or "withdrawal"),
and a server-assigned timestamp. -/
structure Transaction where
  id : Nat
  account_id : Nat
  amount : Rat
  type : String
  timestamp : Nat
deriving Repr, DecidableEq

/-- The request body of POST /transacoes/ (schemas.py, `TransactionCreate`). -/
structure TransactionCreate where
  account_id : Nat
  amount : Rat
  type : String
deriving Repr, DecidableEq

/-- The persistent state: the three tables plus the autoincrement
counters that assign primary keys. -/
structure BankState where
  users : List Usuario
  accounts : List Account
  transactions : List Transaction
  nextUserId : Nat
  nextAccountId : Nat
  nextTransId : Nat
deriving Repr, DecidableEq

/-- An HTTPException as raised in main.py: status code and detail string. -/
structure HTTPError where
  status : Nat
  detail : String
deriving Repr, DecidableEq

/-- main.py line 137: `HTTPException(status_code=403, detail="Não autorizado")`,
raised both for a missing account and for an ownership mismatch
(and by `extrato` for a caller asking about another user). -/
def errNaoAutorizado : HTTPError := ⟨403, "Não autorizado"⟩

/-- main.py line 140: 400 "O valor deve ser positivo". -/
def errValorPositivo : HTTPError := ⟨400, "O valor deve ser positivo"⟩

/-- main.py line 143: 400 "Tipo de transação inválido". -/
def errTipoInvalido : HTTPError := ⟨400, "Tipo de transação inválido"⟩

/-- main.py line 146: 400 "Saldo insuficiente". -/
def errSaldoInsuficiente : HTTPError := ⟨400, "Saldo insuficiente"⟩

/-- main.py line 78: 400 "Usuário já existe". -/
def errUsuarioJaExiste : HTTPError := ⟨400, "Usuário já existe"⟩

/-- main.py line 181: 404 "Nenhuma conta encontrada". -/
def errNenhumaConta : HTTPError := ⟨404, "Nenhuma conta encontrada"⟩

/-- Modelled from the spec: the Credential Store (auth.py, `hash_password`)
delegates to an external password-hashing library; the spec treats it as an
external collaborator whose only relevant contract is that registration
stores a hashed password.  Embedded as a tagging function. -/
def hash_password (password : String) : String := "bcrypt$" ++ password

/-- POST /usuarios/ (main.py, `criar_usuario`): if a user with the same
username already exists, raise 400 "Usuário já existe"; otherwise create
the user (with hashed password) and then an account for it with
balance 0.0, and return the new user. -/
def criar_usuario (s : BankState) (username password : String) :
    BankState × Except HTTPError Usuario :=
  if s.users.any (fun u => u.username == username) then
    (s, .error errUsuarioJaExiste)
  else
    let novo_usuario : Usuario :=
      ⟨s.nextUserId, username, hash_password password⟩
    let conta : Account := ⟨s.nextAccountId, novo_usuario.id, 0⟩
    ({ s with
        users := s.users ++ [novo_usuario],
        accounts := s.accounts ++ [conta],
        nextUserId := s.nextUserId + 1,
        nextAccountId := s.nextAccountId + 1 },
     .ok novo_usuario)

/-- POST /contas/ (main.py, `criar_conta`): create an additional account
for the authenticated user with balance 0.0. -/
def criar_conta (s : BankState) (current_user : Nat) :
    BankState × Except HTTPError Account :=
  let nova_conta : Account := ⟨s.nextAccountId, current_user, 0⟩
  ({ s with
      accounts := s.accounts ++ [nova_conta],
      nextAccountId := s.nextAccountId + 1 },
   .ok nova_conta)

/-- POST /transacoes/ (main.py, `criar_transacao`), line by line:
look up the account by id; `if not conta or conta.user_id != current_user`
raise 403 "Não autorizado"; `if transacao.amount <= 0` raise 400
"O valor deve ser positivo"; `if transacao.type not in {"deposit",
"withdrawal"}` raise 400 "Tipo de transação inválido"; `if transacao.type
== "withdrawal" and transacao.amount > conta.balance` raise 400
"Saldo insuficiente"; otherwise update the balance, append one new
transaction with the current timestamp, and return it. -/
def criar_transacao (s : BankState) (transacao : TransactionCreate)
    (current_user : Nat) (now : Nat) :
    BankState × Except HTTPError Transaction :=
  match s.accounts.find? (fun a => a.id == transacao.account_id) with
  | none => (s, .error errNaoAutorizado)
  | some conta =>
    if conta.user_id ≠ current_user then
      (s, .error errNaoAutorizado)
    else if transacao.amount ≤ 0 then
      (s, .error errValorPositivo)
    else if transacao.type ≠ "deposit" ∧ transacao.type ≠ "withdrawal" then
      (s, .error errTipoInvalido)
    else if transacao.type = "withdrawal" ∧ conta.balance < transacao.amount then
      (s, .error errSaldoInsuficiente)
    else
      let novo_saldo : Rat :=
        if transacao.type = "deposit" then conta.balance + transacao.amount
        else conta.balance - transacao.amount
      let nova_transacao : Transaction :=
        ⟨s.nextTransId, conta.id, transacao.amount, transacao.type, now⟩
      ({ s with
          accounts := s.accounts.map (fun a =>
            if a.id = conta.id then { a with balance := novo_saldo } else a),
          transactions := s.transactions ++ [nova_transacao],
          nextTransId := s.nextTransId + 1 },
       .ok nova_transacao)

/-- GET /contas/{user_id}/extrato (main.py, `extrato`): if the path user id
differs from the authenticated caller, raise 403 "Não autorizado";
otherwise collect the ids of the caller's accounts, raise 404
"Nenhuma conta encontrada" if there are none, and return all
transactions whose account_id is among them. -/
def extrato (s : BankState) (user_id : Nat) (current_user : Nat) :
    Except HTTPError (List Transaction) :=
  if user_id ≠ current_user then
    .error errNaoAutorizado
  else
    let account_ids := (s.accounts.filter (fun a => a.user_id == user_id)).map
      (fun a => a.id)
    if account_ids.isEmpty then
      .error errNenhumaConta
    else
      .ok (s.transactions.filter (fun t => account_ids.contains t.account_id))

/-- The balance of the account with id `aid`, if it exists. -/
def accountBalance (s : BankState) (aid : Nat) : Option Rat :=
  (s.accounts.find? (fun a => a.id == aid)).map (fun a => a.balance)

/-- The sum of the amounts of the deposits recorded for account `aid`. -/
def sumDeposits (aid : Nat) (ts : List Transaction) : Rat :=
  ((ts.filter (fun t => t.account_id == aid && t.type == "deposit")).map
    (fun t => t.amount)).sum

/-- The sum of the amounts of the withdrawals recorded for account `aid`. -/
def sumWithdrawals (aid : Nat) (ts : List Transaction) : Rat :=
  ((ts.filter (fun t => t.account_id == aid && t.type == "withdrawal")).map
    (fun t => t.amount)).sum

/-- Run a sequence of POST /transacoes/ calls by one caller, each request
paired with the server time of that call; `some` of the final state when
every call succeeds, `none` as soon as one fails. -/
def postSeq (s : BankState) (caller : Nat)
    (reqs : List (TransactionCreate × Nat)) : Option BankState :=
  match reqs with
  | [] => some s
  | (req, now) :: rest =>
    match criar_transacao s req caller now with
    | (s', .ok _) => postSeq s' caller rest
    | (_, .error _) => none

/-- Every user has an account and every account has an owner
(the pairing that C4 calls absence of orphans). -/
def paired (s : BankState) : Prop :=
  (∀ u ∈ s.users, ∃ a ∈ s.accounts, a.user_id = u.id) ∧
  (∀ a ∈ s.accounts, ∃ u ∈ s.users, u.id = a.user_id)

/-! ### Helper lemmas about `criar_transacao` -/

/-- The state and transaction produced by the success branch of
`criar_transacao`, given the account row that the lookup returned. -/
def postState (s : BankState) (tc : TransactionCreate) (conta : Account)
    (now : Nat) : BankState × Transaction :=
  let novo_saldo : Rat :=
    if tc.type = "deposit" then conta.balance + tc.amount
    else conta.balance - tc.amount
  let nova : Transaction := ⟨s.nextTransId, conta.id, tc.amount, tc.type, now⟩
  ({ s with
      accounts := s.accounts.map (fun a =>
        if a.id = conta.id then { a with balance := novo_saldo } else a),
      transactions := s.transactions ++ [nova],
      nextTransId := s.nextTransId + 1 },
   nova)

/-- Forward evaluation: when the five posting preconditions hold,
`criar_transacao` takes the success branch. -/
theorem criar_transacao_success (s : BankState) (tc : TransactionCreate)
    (cu now : Nat) (conta : Account)
    (hfind : s.accounts.find? (fun a => a.id == tc.account_id) = some conta)
    (hown : conta.user_id = cu)
    (hamt : 0 < tc.amount)
    (hty : tc.type = "deposit" ∨ tc.type = "withdrawal")
    (hbal : tc.type = "withdrawal" → tc.amount ≤ conta.balance) :
    criar_transacao s tc cu now =
      ((postState s tc conta now).1, .ok (postState s tc conta now).2) := by
  simp only [criar_transacao, hfind]
  rw [if_neg (by simp [hown]), if_neg (not_le.mpr hamt),
      if_neg (by rcases hty with h | h <;> simp [h]),
      if_neg (by rintro ⟨hw, hlt⟩; exact absurd (hbal hw) (not_le.mpr hlt))]
  rfl

/-- Backward inversion: a successful `criar_transacao` call implies the five
posting preconditions and fully determines the new state and the returned
transaction. -/
theorem criar_transacao_ok_inv (s : BankState) (tc : TransactionCreate)
    (cu now : Nat) (s' : BankState) (t : Transaction)
    (h : criar_transacao s tc cu now = (s', .ok t)) :
    ∃ conta,
      s.accounts.find? (fun a => a.id == tc.account_id) = some conta ∧
      conta.user_id = cu ∧ 0 < tc.amount ∧
      (tc.type = "deposit" ∨ tc.type = "withdrawal") ∧
      (tc.type = "withdrawal" → tc.amount ≤ conta.balance) ∧
      t = ⟨s.nextTransId, conta.id, tc.amount, tc.type, now⟩ ∧
      s' = (postState s tc conta now).1 := by
  rcases hf : s.accounts.find? (fun a => a.id == tc.account_id) with _ | conta
  · simp [criar_transacao, hf] at h
  · simp only [criar_transacao, hf] at h
    split_ifs at h with h1 h2 h3 h4 h5
    · simp at h
    · simp at h
    · simp at h
    · simp at h
    · simp only [Prod.mk.injEq, Except.ok.injEq] at h
      obtain ⟨hs, ht⟩ := h
      refine ⟨conta, hf, not_not.mp h1, not_le.mp h2, Or.inl h5, ?_, ht.symm, ?_⟩
      · intro hw
        rw [hw] at h5
        exact absurd h5 (by decide)
      · rw [← hs]
        simp [postState, h5]
    · have hw : tc.type = "withdrawal" := by
        rcases not_and_or.mp h3 with hd | hwd
        · exact absurd (not_not.mp hd) h5
        · exact not_not.mp hwd
      simp only [Prod.mk.injEq, Except.ok.injEq] at h
      obtain ⟨hs, ht⟩ := h
      refine ⟨conta, hf, not_not.mp h1, not_le.mp h2, Or.inr hw, ?_, ht.symm, ?_⟩
      · intro _
        rcases not_and_or.mp h4 with hc | hc
        · exact absurd hw hc
        · exact not_lt.mp hc
      · rw [← hs]
        simp [postState, h5]

/-! ### The ledger invariant: cached balance = Σ deposits − Σ withdrawals ≥ 0 -/

/-- The account `aid` exists, its cached balance equals the sum of its
deposits minus the sum of its withdrawals, and that balance is nonnegative. -/
def ledgerInv (s : BankState) (aid : Nat) : Prop :=
  accountBalance s aid =
    some (sumDeposits aid s.transactions - sumWithdrawals aid s.transactions) ∧
  ∀ b, accountBalance s aid = some b → 0 ≤ b

theorem sum_filter_and_eq_zero (aid : Nat) (q : Transaction → Bool)
    (ts : List Transaction)
    (h : ts.filter (fun t => t.account_id == aid) = []) :
    ((ts.filter (fun t => t.account_id == aid && q t)).map
      (fun t => t.amount)).sum = 0 := by
  induction ts with
  | nil => rfl
  | cons t ts ih =>
    rw [List.filter_cons] at h
    by_cases ha : (t.account_id == aid) = true
    · rw [if_pos ha] at h
      exact absurd h (List.cons_ne_nil _ _)
    · rw [if_neg ha] at h
      rw [List.filter_cons, if_neg (by simp_all)]
      exact ih h

theorem sumDeposits_append_single (aid : Nat) (ts : List Transaction)
    (t : Transaction) :
    sumDeposits aid (ts ++ [t]) =
      sumDeposits aid ts +
        (if t.account_id == aid && t.type == "deposit" then t.amount else 0) := by
  simp only [sumDeposits, List.filter_append, List.map_append, List.sum_append]
  by_cases hc : (t.account_id == aid && t.type == "deposit") = true
  · simp [List.filter_cons, hc]
  · simp [List.filter_cons, hc]

theorem sumWithdrawals_append_single (aid : Nat) (ts : List Transaction)
    (t : Transaction) :
    sumWithdrawals aid (ts ++ [t]) =
      sumWithdrawals aid ts +
        (if t.account_id == aid && t.type == "withdrawal" then t.amount else 0) := by
  simp only [sumWithdrawals, List.filter_append, List.map_append, List.sum_append]
  by_cases hc : (t.account_id == aid && t.type == "withdrawal") = true
  · simp [List.filter_cons, hc]
  · simp [List.filter_cons, hc]

theorem accounts_map_find? (l : List Account) (f : Account → Account)
    (hid : ∀ a, (f a).id = a.id) (x : Nat) :
    (l.map f).find? (fun a => a.id == x) =
      Option.map f (l.find? (fun a => a.id == x)) := by
  rw [List.find?_map]
  have hp : ((fun a : Account => a.id == x) ∘ f) = (fun a => a.id == x) := by
    funext a
    simp [Function.comp, hid]
  rw [hp]

/-- After the success branch, the posted account's balance is the old
balance plus the amount for a deposit, minus it for a withdrawal. -/
theorem accountBalance_postState (s : BankState) (tc : TransactionCreate)
    (conta : Account) (now : Nat)
    (hfind : s.accounts.find? (fun a => a.id == tc.account_id) = some conta) :
    accountBalance (postState s tc conta now).1 tc.account_id =
      some (if tc.type = "deposit" then conta.balance + tc.amount
            else conta.balance - tc.amount) := by
  simp only [accountBalance, postState]
  rw [accounts_map_find? _ _ (fun a => by by_cases h : a.id = conta.id <;> simp [h]),
      hfind]
  simp

/-- One successful `criar_transacao` call on account `aid` preserves the
ledger invariant for `aid`. -/
theorem criar_transacao_ok_ledgerInv (s : BankState) (tc : TransactionCreate)
    (cu now aid : Nat) (s' : BankState) (t : Transaction)
    (haid : tc.account_id = aid)
    (h : criar_transacao s tc cu now = (s', .ok t))
    (hinv : ledgerInv s aid) : ledgerInv s' aid := by
  obtain ⟨conta, hfind, -, hamt, hty, hbal, ht, hs⟩ :=
    criar_transacao_ok_inv s tc cu now s' t h
  subst haid
  have hbal0 : accountBalance s tc.account_id = some conta.balance := by
    simp [accountBalance, hfind]
  have hb_eq : conta.balance =
      sumDeposits tc.account_id s.transactions -
        sumWithdrawals tc.account_id s.transactions := by
    have := hinv.1
    rw [hbal0] at this
    exact Option.some.injEq _ _ ▸ this
  have hb_nonneg : 0 ≤ conta.balance := hinv.2 _ hbal0
  have hcid : conta.id = tc.account_id := by
    have := List.find?_some hfind
    simpa using this
  have htx : s'.transactions = s.transactions ++ [t] := by
    rw [hs]; simp [postState, ht]
  have hbal' : accountBalance s' tc.account_id =
      some (if tc.type = "deposit" then conta.balance + tc.amount
            else conta.balance - tc.amount) := by
    rw [hs]; exact accountBalance_postState s tc conta now hfind
  constructor
  · rw [hbal', htx, sumDeposits_append_single, sumWithdrawals_append_single, ht]
    rcases hty with hd | hw
    · simp [hd, hcid, hb_eq]
      ring
    · rw [hw]
      simp [hcid, hb_eq]
      ring
  · intro b hb
    rw [hbal'] at hb
    have hb' : b = (if tc.type = "deposit" then conta.balance + tc.amount
        else conta.balance - tc.amount) := by
      exact (Option.some.injEq _ _ ▸ hb).symm
    rcases hty with hd | hw
    · rw [hb', if_pos hd]
      positivity
    · rw [hb', if_neg (by rw [hw]; decide)]
      have := hbal hw
      linarith

/-- A fully successful sequence of postings on account `aid` preserves the
ledger invariant. -/
theorem postSeq_ledgerInv (caller aid : Nat) :
    ∀ (reqs : List (TransactionCreate × Nat)) (s s' : BankState),
      (∀ r ∈ reqs, r.1.account_id = aid) →
      ledgerInv s aid → postSeq s caller reqs = some s' → ledgerInv s' aid := by
  intro reqs
  induction reqs with
  | nil =>
    intro s s' _ hinv hrun
    simp only [postSeq] at hrun
    exact (Option.some.injEq _ _ ▸ hrun) ▸ hinv
  | cons r rest ih =>
    intro s s' hacc hinv hrun
    simp only [postSeq] at hrun
    rcases hr : criar_transacao s r.1 caller r.2 with ⟨s1, res⟩
    rcases res with e | t
    · rw [hr] at hrun
      simp at hrun
    · rw [hr] at hrun
      exact ih s1 s' (fun q hq => hacc q (List.mem_cons_of_mem r hq))
        (criar_transacao_ok_ledgerInv s r.1 caller r.2 aid s1 t
          (hacc r (List.mem_cons_self r rest)) hr hinv) hrun

/-- When a whole sequence of postings succeeds, so does every prefix. -/
theorem postSeq_take (caller : Nat) :
    ∀ (reqs : List (TransactionCreate × Nat)) (s s' : BankState),
      postSeq s caller reqs = some s' →
      ∀ n, ∃ sn, postSeq s caller (reqs.take n) = some sn := by
  intro reqs
  induction reqs with
  | nil =>
    intro s s' _ n
    exact ⟨s, by simp [postSeq]⟩
  | cons r rest ih =>
    intro s s' hrun n
    rcases n with _ | n
    · exact ⟨s, by simp [postSeq]⟩
    · simp only [postSeq] at hrun
      rcases hr : criar_transacao s r.1 caller r.2 with ⟨s1, res⟩
      rcases res with e | t
      · rw [hr] at hrun
        simp at hrun
      · rw [hr] at hrun
        obtain ⟨sn, hsn⟩ := ih s1 s' hrun n
        exact ⟨sn, by simp only [List.take_succ_cons, postSeq, hr]; exact hsn⟩

/-! ### Concrete data used by witnesses -/

/-- A registered user, as stored by `criar_usuario`. -/
def wAlice : Usuario := ⟨1, "alice", hash_password "pw"⟩

/-- A second registered user. -/
def wBob : Usuario := ⟨2, "bob", hash_password "pw2"⟩

/-- State right after alice registered: one user, one account, balance 0. -/
def wState0 : BankState := ⟨[wAlice], [⟨1, 1, 0⟩], [], 2, 2, 1⟩

/-- Two posting requests on account 1: deposit 100, then withdraw 40. -/
def wReqs : List (TransactionCreate × Nat) :=
  [(⟨1, 100, "deposit"⟩, 10), (⟨1, 40, "withdrawal"⟩, 12)]

/-- State after the deposit of 100. -/
def wState1 : BankState :=
  ⟨[wAlice], [⟨1, 1, 100⟩], [⟨1, 1, 100, "deposit", 10⟩], 2, 2, 2⟩

/-- State after the deposit of 100 and the withdrawal of 40. -/
def wState2 : BankState :=
  ⟨[wAlice], [⟨1, 1, 60⟩],
   [⟨1, 1, 100, "deposit", 10⟩, ⟨2, 1, 40, "withdrawal", 12⟩], 2, 2, 3⟩

/-! ### The claims -/

/-- Claim C1: for every sequence of successful `PostTransaction` calls on
one account starting from its creation with balance 0, the account's
balance equals the sum of the deposit amounts minus the sum of the
withdrawal amounts of the transactions recorded for it, and this balance
is never negative after any call in the sequence (every prefix of the
sequence also succeeds and satisfies both properties). -/
theorem balance_equals_sums_and_nonneg (s0 : BankState) (caller aid : Nat)
    (reqs : List (TransactionCreate × Nat)) (s' : BankState)
    (hacc : ∀ r ∈ reqs, r.1.account_id = aid)
    (h0 : accountBalance s0 aid = some 0)
    (hT : s0.transactions.filter (fun t => t.account_id == aid) = [])
    (hrun : postSeq s0 caller reqs = some s') :
    (accountBalance s' aid =
       some (sumDeposits aid s'.transactions - sumWithdrawals aid s'.transactions) ∧
     ∀ b, accountBalance s' aid = some b → 0 ≤ b) ∧
    (∀ n, ∃ sn, postSeq s0 caller (reqs.take n) = some sn ∧
       accountBalance sn aid =
         some (sumDeposits aid sn.transactions - sumWithdrawals aid sn.transactions) ∧
       ∀ b, accountBalance sn aid = some b → 0 ≤ b) := by
  have hd0 : sumDeposits aid s0.transactions = 0 := by
    simpa [sumDeposits] using
      sum_filter_and_eq_zero aid (fun t => t.type == "deposit") s0.transactions hT
  have hw0 : sumWithdrawals aid s0.transactions = 0 := by
    simpa [sumWithdrawals] using
      sum_filter_and_eq_zero aid (fun t => t.type == "withdrawal") s0.transactions hT
  have hinv0 : ledgerInv s0 aid := by
    constructor
    · rw [h0, hd0, hw0]
      norm_num
    · intro b hb
      rw [h0] at hb
      simp only [Option.some.injEq] at hb
      rw [← hb]
  constructor
  · exact postSeq_ledgerInv caller aid reqs s0 s' hacc hinv0 hrun
  · intro n
    obtain ⟨sn, hsn⟩ := postSeq_take caller reqs s0 s' hrun n
    refine ⟨sn, hsn, ?_⟩
    exact postSeq_ledgerInv caller aid (reqs.take n) s0 sn
      (fun r hr => hacc r (List.take_subset n reqs hr)) hinv0 hsn

/-- Witness for C1: alice's account is created with balance 0; a deposit of
100 then a withdrawal of 40 both succeed, the final and all intermediate
balances match the transaction sums and are nonnegative. -/
theorem balance_equals_sums_and_nonneg_witness :
    (accountBalance wState2 1 =
       some (sumDeposits 1 wState2.transactions -
         sumWithdrawals 1 wState2.transactions) ∧
     ∀ b, accountBalance wState2 1 = some b → 0 ≤ b) ∧
    (∀ n, ∃ sn, postSeq wState0 1 (wReqs.take n) = some sn ∧
       accountBalance sn 1 =
         some (sumDeposits 1 sn.transactions - sumWithdrawals 1 sn.transactions) ∧
       ∀ b, accountBalance sn 1 = some b → 0 ≤ b) :=
  balance_equals_sums_and_nonneg wState0 1 1 wReqs wState2
    (by simp [wReqs])
    (by rfl)
    (by rfl)
    (by norm_num [postSeq, criar_transacao, wState0, wReqs, wState2, wAlice,
      List.find?, hash_password,
      show ("deposit" : String) ≠ "withdrawal" by decide,
      show ("withdrawal" : String) ≠ "deposit" by decide])

/-- Claim C2: when the five posting preconditions hold (account exists,
caller owns it, amount positive, kind valid, and a withdrawal is covered
by the balance), `criar_transacao` succeeds, moves the balance by exactly
the amount in the direction given by the kind, appends exactly one new
transaction carrying that account id, amount, kind and the server-assigned
timestamp, and returns that transaction. -/
theorem posting_success_effect (s : BankState) (tc : TransactionCreate)
    (cu now : Nat) (conta : Account)
    (hfind : s.accounts.find? (fun a => a.id == tc.account_id) = some conta)
    (hown : conta.user_id = cu)
    (hamt : 0 < tc.amount)
    (hty : tc.type = "deposit" ∨ tc.type = "withdrawal")
    (hbal : tc.type = "withdrawal" → tc.amount ≤ conta.balance) :
    ∃ s' t, criar_transacao s tc cu now = (s', .ok t) ∧
      t = ⟨s.nextTransId, tc.account_id, tc.amount, tc.type, now⟩ ∧
      s'.transactions = s.transactions ++ [t] ∧
      accountBalance s tc.account_id = some conta.balance ∧
      accountBalance s' tc.account_id =
        some (if tc.type = "deposit" then conta.balance + tc.amount
              else conta.balance - tc.amount) := by
  have hcid : conta.id = tc.account_id := by simpa using List.find?_some hfind
  refine ⟨(postState s tc conta now).1, (postState s tc conta now).2,
    criar_transacao_success s tc cu now conta hfind hown hamt hty hbal,
    ?_, ?_, ?_, ?_⟩
  · simp [postState, hcid]
  · simp [postState]
  · simp [accountBalance, hfind]
  · exact accountBalance_postState s tc conta now hfind

/-- Witness for C2: alice deposits 100 into her account with balance 0. -/
theorem posting_success_effect_witness :
    ∃ s' t, criar_transacao wState0 ⟨1, 100, "deposit"⟩ 1 10 = (s', .ok t) ∧
      t = ⟨wState0.nextTransId, 1, 100, "deposit", 10⟩ ∧
      s'.transactions = wState0.transactions ++ [t] ∧
      accountBalance wState0 1 = some (0 : Rat) ∧
      accountBalance s' 1 =
        some (if ("deposit" : String) = "deposit" then (0 : Rat) + 100
              else (0 : Rat) - 100) :=
  posting_success_effect wState0 ⟨1, 100, "deposit"⟩ 1 10 ⟨1, 1, 0⟩
    (by rfl) (by rfl) (by norm_num) (Or.inl rfl)
    (by intro hw; exact absurd hw (by decide))

/-- Claim C3 counterexample: posting to an account id that matches no
account fails with the 403 "Não autorizado" (Unauthorized) response, so a
nonexistent account does yield Unauthorized; the code has no separate
AccountNotFound error (no 404 is ever raised by `criar_transacao`). -/
theorem missing_account_yields_unauthorized_cex :
    (criar_transacao ⟨[wAlice], [], [], 2, 1, 1⟩ ⟨1, 5, "deposit"⟩ 1 0).2 =
      .error errNaoAutorizado ∧ errNaoAutorizado.status = 403 :=
  ⟨rfl, rfl⟩

/-- Claim C3 amended: a `criar_transacao` call whose account id references
no existing account fails with the same 403 Unauthorized error as an
ownership mismatch, before any other check (regardless of amount or kind),
and the state is unchanged. -/
theorem missing_account_unauthorized (s : BankState) (tc : TransactionCreate)
    (cu now : Nat)
    (hfind : s.accounts.find? (fun a => a.id == tc.account_id) = none) :
    criar_transacao s tc cu now = (s, .error errNaoAutorizado) := by
  simp [criar_transacao, hfind]

/-- Witness for the amended C3: posting to account 1 when no accounts
exist. -/
theorem missing_account_unauthorized_witness :
    criar_transacao ⟨[wAlice], [], [], 2, 1, 1⟩ ⟨1, 5, "deposit"⟩ 1 0 =
      (⟨[wAlice], [], [], 2, 1, 1⟩, .error errNaoAutorizado) :=
  missing_account_unauthorized ⟨[wAlice], [], [], 2, 1, 1⟩ ⟨1, 5, "deposit"⟩ 1 0
    (by rfl)

/-- Claim C4: a successful `criar_usuario` call creates exactly one new
user (with a hashed password) and exactly one new account owned by that
user with balance 0; after any call, successful or failed, a state with no
orphan user and no orphan account still has none (the failed call leaves
the state unchanged). -/
theorem registration_atomic (s : BankState) (un pw : String)
    (hpair : paired s) :
    (∀ e, (criar_usuario s un pw).2 = .error e →
       (criar_usuario s un pw).1 = s ∧ paired (criar_usuario s un pw).1) ∧
    (∀ u, (criar_usuario s un pw).2 = .ok u →
       u = ⟨s.nextUserId, un, hash_password pw⟩ ∧
       (criar_usuario s un pw).1.users = s.users ++ [u] ∧
       (criar_usuario s un pw).1.accounts =
         s.accounts ++ [⟨s.nextAccountId, u.id, 0⟩] ∧
       paired (criar_usuario s un pw).1) := by
  by_cases hdup : s.users.any (fun u => u.username == un)
  · refine ⟨fun e _ => ⟨by simp [criar_usuario, hdup], ?_⟩, fun u hu => ?_⟩
    · simpa [criar_usuario, hdup] using hpair
    · simp [criar_usuario, hdup] at hu
  · have hok : criar_usuario s un pw =
        ({ s with
            users := s.users ++ [⟨s.nextUserId, un, hash_password pw⟩],
            accounts := s.accounts ++ [⟨s.nextAccountId, s.nextUserId, 0⟩],
            nextUserId := s.nextUserId + 1,
            nextAccountId := s.nextAccountId + 1 },
         .ok ⟨s.nextUserId, un, hash_password pw⟩) := by
      simp [criar_usuario, hdup]
    refine ⟨fun e he => ?_, fun u hu => ?_⟩
    · rw [hok] at he
      simp at he
    · rw [hok] at hu
      simp only [Except.ok.injEq] at hu
      subst hu
      refine ⟨rfl, by rw [hok], by rw [hok], ?_⟩
      rw [hok]
      constructor
      · intro v hv
        rcases List.mem_append.mp hv with hv | hv
        · obtain ⟨a, ha, hae⟩ := hpair.1 v hv
          exact ⟨a, List.mem_append.mpr (Or.inl ha), hae⟩
        · refine ⟨⟨s.nextAccountId, s.nextUserId, 0⟩,
            List.mem_append.mpr (Or.inr (List.mem_singleton_self _)), ?_⟩
          simp only [List.mem_singleton] at hv
          rw [hv]
      · intro a ha
        rcases List.mem_append.mp ha with ha | ha
        · obtain ⟨v, hv, hve⟩ := hpair.2 a ha
          exact ⟨v, List.mem_append.mpr (Or.inl hv), hve⟩
        · refine ⟨⟨s.nextUserId, un, hash_password pw⟩,
            List.mem_append.mpr (Or.inr (List.mem_singleton_self _)), ?_⟩
          simp only [List.mem_singleton] at ha
          rw [ha]

/-- Witness for C4: registering alice on the empty state. -/
theorem registration_atomic_witness :
    (∀ e, (criar_usuario ⟨[], [], [], 1, 1, 1⟩ "alice" "pw").2 = .error e →
       (criar_usuario ⟨[], [], [], 1, 1, 1⟩ "alice" "pw").1 = ⟨[], [], [], 1, 1, 1⟩ ∧
       paired (criar_usuario ⟨[], [], [], 1, 1, 1⟩ "alice" "pw").1) ∧
    (∀ u, (criar_usuario ⟨[], [], [], 1, 1, 1⟩ "alice" "pw").2 = .ok u →
       u = ⟨1, "alice", hash_password "pw"⟩ ∧
       (criar_usuario ⟨[], [], [], 1, 1, 1⟩ "alice" "pw").1.users = [] ++ [u] ∧
       (criar_usuario ⟨[], [], [], 1, 1, 1⟩ "alice" "pw").1.accounts =
         [] ++ [⟨1, u.id, 0⟩] ∧
       paired (criar_usuario ⟨[], [], [], 1, 1, 1⟩ "alice" "pw").1) :=
  registration_atomic ⟨[], [], [], 1, 1, 1⟩ "alice" "pw"
    ⟨fun u hu => absurd hu (List.not_mem_nil u),
     fun a ha => absurd ha (List.not_mem_nil a)⟩

/-- Claim C5: a withdrawal by the owner of an existing account, with a
positive amount strictly greater than the balance, fails with 400
"Saldo insuficiente" (InsufficientFunds) and leaves the state — balance
and ledger — unchanged. -/
theorem insufficient_funds_unchanged (s : BankState) (tc : TransactionCreate)
    (cu now : Nat) (conta : Account)
    (hfind : s.accounts.find? (fun a => a.id == tc.account_id) = some conta)
    (hown : conta.user_id = cu)
    (hamt : 0 < tc.amount)
    (hty : tc.type = "withdrawal")
    (hgt : conta.balance < tc.amount) :
    criar_transacao s tc cu now = (s, .error errSaldoInsuficiente) := by
  simp only [criar_transacao, hfind]
  rw [if_neg (by simp [hown]), if_neg (not_le.mpr hamt),
      if_neg (by rintro ⟨-, hw⟩; exact hw hty), if_pos ⟨hty, hgt⟩]

/-- Witness for C5: alice, balance 100, tries to withdraw 150. -/
theorem insufficient_funds_unchanged_witness :
    criar_transacao wState1 ⟨1, 150, "withdrawal"⟩ 1 11 =
      (wState1, .error errSaldoInsuficiente) :=
  insufficient_funds_unchanged wState1 ⟨1, 150, "withdrawal"⟩ 1 11 ⟨1, 1, 100⟩
    (by rfl) (by rfl) (by norm_num) rfl (by norm_num)

/-- Claim C6 counterexample: a posting with amount 0 against a nonexistent
account fails with 403 "Não autorizado", not with the InvalidAmount error
("O valor deve ser positivo"), because the merged existence/ownership
check runs before the amount check. -/
theorem nonpositive_amount_cex :
    (criar_transacao ⟨[], [], [], 1, 1, 1⟩ ⟨1, 0, "deposit"⟩ 1 0).2 =
      .error errNaoAutorizado ∧ errNaoAutorizado ≠ errValorPositivo :=
  ⟨rfl, by decide⟩

/-- Claim C6 amended: a posting on an existing account owned by the caller
with amount ≤ 0 fails with 400 "O valor deve ser positivo" (InvalidAmount)
regardless of the kind supplied, and the state is unchanged. -/
theorem nonpositive_amount_invalid (s : BankState) (tc : TransactionCreate)
    (cu now : Nat) (conta : Account)
    (hfind : s.accounts.find? (fun a => a.id == tc.account_id) = some conta)
    (hown : conta.user_id = cu)
    (hamt : tc.amount ≤ 0) :
    criar_transacao s tc cu now = (s, .error errValorPositivo) := by
  simp only [criar_transacao, hfind]
  rw [if_neg (by simp [hown]), if_pos hamt]

/-- Witness for the amended C6: alice posts a withdrawal of −5. -/
theorem nonpositive_amount_invalid_witness :
    criar_transacao wState0 ⟨1, -5, "withdrawal"⟩ 1 3 =
      (wState0, .error errValorPositivo) :=
  nonpositive_amount_invalid wState0 ⟨1, -5, "withdrawal"⟩ 1 3 ⟨1, 1, 0⟩
    (by rfl) (by rfl) (by norm_num)

/-- Claim C7: registering a username that already belongs to a user
(case-sensitive exact string match) fails with 400 "Usuário já existe"
(DuplicateUsername) and the state — users and accounts — is unchanged. -/
theorem duplicate_username_rejected (s : BankState) (un pw : String)
    (u : Usuario) (hu : u ∈ s.users) (hname : u.username = un) :
    criar_usuario s un pw = (s, .error errUsuarioJaExiste) := by
  have hdup : s.users.any (fun v => v.username == un) = true :=
    List.any_eq_true.mpr ⟨u, hu, by simp [hname]⟩
  simp [criar_usuario, hdup]

/-- Witness for C7: registering "alice" a second time. -/
theorem duplicate_username_rejected_witness :
    criar_usuario wState0 "alice" "other" = (wState0, .error errUsuarioJaExiste) :=
  duplicate_username_rejected wState0 "alice" "other" wAlice
    (by simp [wState0]) rfl

/-- Claim C8: a statement request for a user id different from the
authenticated caller fails with 403 "Não autorizado" (Unauthorized) —
no transaction list is returned — even when the target user exists and
owns accounts. -/
theorem extrato_unauthorized (s : BankState) (user_id cu : Nat)
    (h : user_id ≠ cu) :
    extrato s user_id cu = .error errNaoAutorizado := by
  simp [extrato, h]

/-- Witness for C8: caller 2 asks for user 1's statement while user 1
exists and owns account 1. -/
theorem extrato_unauthorized_witness :
    extrato wState0 1 2 = .error errNaoAutorizado :=
  extrato_unauthorized wState0 1 2 (by decide)

/-- Claim C9 (frame): a successful posting leaves the users table
untouched, appends exactly the one returned transaction to the ledger,
keeps every account with a different id exactly as it was (in both
directions), and preserves the id and owner of every account. -/
theorem posting_frame (s : BankState) (tc : TransactionCreate) (cu now : Nat)
    (s' : BankState) (t : Transaction)
    (h : criar_transacao s tc cu now = (s', .ok t)) :
    s'.users = s.users ∧
    s'.transactions = s.transactions ++ [t] ∧
    (∀ a ∈ s.accounts, a.id ≠ t.account_id → a ∈ s'.accounts) ∧
    (∀ a ∈ s'.accounts, a.id ≠ t.account_id → a ∈ s.accounts) ∧
    (∀ a ∈ s'.accounts, ∃ b ∈ s.accounts, a.id = b.id ∧ a.user_id = b.user_id) := by
  obtain ⟨conta, hfind, -, -, -, -, ht, hs⟩ :=
    criar_transacao_ok_inv s tc cu now s' t h
  have htacc : t.account_id = conta.id := by rw [ht]
  subst hs
  refine ⟨by simp [postState], by simp [postState, ht], ?_, ?_, ?_⟩
  · intro a ha hne
    rw [htacc] at hne
    simp only [postState, List.mem_map]
    exact ⟨a, ha, by rw [if_neg hne]⟩
  · intro a ha hne
    rw [htacc] at hne
    simp only [postState, List.mem_map] at ha
    obtain ⟨b, hb, hfb⟩ := ha
    by_cases hid : b.id = conta.id
    · rw [if_pos hid] at hfb
      rw [← hfb] at hne
      exact absurd hid hne
    · rw [if_neg hid] at hfb
      rw [← hfb]
      exact hb
  · intro a ha
    simp only [postState, List.mem_map] at ha
    obtain ⟨b, hb, hfb⟩ := ha
    refine ⟨b, hb, ?_, ?_⟩ <;> rw [← hfb] <;>
      by_cases hid : b.id = conta.id <;> simp [hid]

/-- Witness for C9: alice's deposit of 100 into account 1 on `wState0`. -/
theorem posting_frame_witness :
    wState1.users = wState0.users ∧
    wState1.transactions =
      wState0.transactions ++ [⟨1, 1, 100, "deposit", 10⟩] ∧
    (∀ a ∈ wState0.accounts,
      a.id ≠ (⟨1, 1, 100, "deposit", 10⟩ : Transaction).account_id →
        a ∈ wState1.accounts) ∧
    (∀ a ∈ wState1.accounts,
      a.id ≠ (⟨1, 1, 100, "deposit", 10⟩ : Transaction).account_id →
        a ∈ wState0.accounts) ∧
    (∀ a ∈ wState1.accounts, ∃ b ∈ wState0.accounts,
      a.id = b.id ∧ a.user_id = b.user_id) :=
  posting_frame wState0 ⟨1, 100, "deposit"⟩ 1 10 wState1 ⟨1, 1, 100, "deposit", 10⟩
    (by norm_num [criar_transacao, wState0, wState1, wAlice, List.find?,
      show ("deposit" : String) ≠ "withdrawal" by decide])

/-- Claim C10: a posting against an account id that does not exist and a
posting against an account owned by a different user fail with the same
403 "Não autorizado" error, leaving the state unchanged, so the caller
cannot distinguish the two cases. -/
theorem missing_or_foreign_account_unauthorized (s : BankState)
    (tc : TransactionCreate) (cu now : Nat)
    (h : s.accounts.find? (fun a => a.id == tc.account_id) = none ∨
         ∃ conta, s.accounts.find? (fun a => a.id == tc.account_id) = some conta ∧
           conta.user_id ≠ cu) :
    criar_transacao s tc cu now = (s, .error errNaoAutorizado) := by
  rcases h with hf | ⟨conta, hf, hne⟩
  · simp [criar_transacao, hf]
  · simp only [criar_transacao, hf]
    rw [if_pos hne]

/-- Witness for C10: bob (user 2) posts to alice's account 1. -/
theorem missing_or_foreign_account_unauthorized_witness :
    criar_transacao ⟨[wAlice, wBob], [⟨1, 1, 0⟩], [], 3, 2, 1⟩
        ⟨1, 10, "deposit"⟩ 2 5 =
      (⟨[wAlice, wBob], [⟨1, 1, 0⟩], [], 3, 2, 1⟩, .error errNaoAutorizado) :=
  missing_or_foreign_account_unauthorized
    ⟨[wAlice, wBob], [⟨1, 1, 0⟩], [], 3, 2, 1⟩ ⟨1, 10, "deposit"⟩ 2 5
    (Or.inr ⟨⟨1, 1, 0⟩, by rfl, by decide⟩)

end FastApiBanco
